import Mathlib

/-!
Verification of the `multi-llm-ts` completion-orchestration engine.

Shallow embedding of `src/engine.ts` (`LlmEngine`: `buildPayload`,
`addTextToPayload`, `addImageToPayload`, `generate`, `callTool`,
`processToolExecutionResult`) and of the Ollama provider
(`src/providers/ollama.ts`: `nativeChunkToLlmChunk`, `doStream`,
`requiresFlatTextPayload`).  TypeScript async generators become pure
functions that return the list of yielded values (plus a possible
terminal exception); the mutable `AbortSignal` becomes a boolean signal
sampled at an explicit poll counter; the mutable streaming context is
threaded through explicitly.
-/

set_option maxHeartbeats 1000000

namespace MultiLlm

/-! ## Data model: messages, attachments, models (types/llm.ts, models/) -/

/-- Message roles (`LlmRole` in `types/llm.ts`). -/
inductive Role where
  | system
  | developer
  | user
  | assistant
  | tool
deriving DecidableEq, Repr

/-- Modelled from the spec: `models/attachment.ts` is not under `src/`;
§3 of the spec gives an Attachment a kind (text/image/other), raw
content (possibly absent for lazily-loaded history) and a mime type,
with `isText`/`isImage` the kind tests used by `buildPayload`. -/
inductive AttKind where
  | text
  | image
  | other
deriving DecidableEq, Repr

structure Attachment where
  kind : AttKind
  mimeType : String
  content : Option String
deriving DecidableEq, Repr

def Attachment.isText (a : Attachment) : Bool := a.kind = AttKind.text

def Attachment.isImage (a : Attachment) : Bool := a.kind = AttKind.image

/-- Modelled from the spec: `models/message.ts` is not under `src/`;
§3: role, content-for-model (text, possibly null), ordered attachments. -/
structure Message where
  role : Role
  contentForModel : Option String
  attachments : List Attachment
deriving DecidableEq, Repr

/-- `ModelCapabilities` (types/index.ts, as used by `engine.ts`). -/
structure ModelCapabilities where
  tools : Bool
  vision : Bool
  reasoning : Bool
  caching : Bool
deriving DecidableEq, Repr

/-- `ChatModel`: identity plus capability set. -/
structure ChatModel where
  id : String
  name : String
  capabilities : ModelCapabilities
deriving DecidableEq, Repr

/-! ## Payload model (`LLmCompletionPayload`, `LlmContentPayload`) -/

/-- One typed content segment of a payload (`LlmContentPayload`). -/
inductive Seg where
  | text (t : String)
  | imageUrl (url : String)
deriving DecidableEq, Repr

/-- `LLmCompletionPayload.content`: either a flat string or a segment list. -/
inductive PContent where
  | str (s : String)
  | parts (l : List Seg)
deriving DecidableEq, Repr

/-- `LLmCompletionPayload` (role, content, plus the Ollama-specific
`images` array which is absent (= `[]`) unless the Ollama override adds
to it). -/
structure PayloadMsg where
  role : Role
  content : PContent
  images : List String
deriving DecidableEq, Repr

/-- The text segments of a payload content: a flat string is the single
text segment; in a segment list, the `text` segments in order. -/
def PContent.textSegs : PContent → List String
  | .str s => [s]
  | .parts l => l.filterMap fun s => match s with
      | .text t => some t
      | _ => none

/-- The image-url segments of a payload content. -/
def PContent.imageUrls : PContent → List String
  | .str _ => []
  | .parts l => l.filterMap fun s => match s with
      | .imageUrl u => some u
      | _ => none

/-- The segment list of a payload content (a flat string has none). -/
def PContent.segs : PContent → List Seg
  | .str _ => []
  | .parts l => l

/-! ## Payload builder (`engine.ts` lines 59-100, 241-291)

`buildPayload` dispatches on `this.requiresFlatTextPayload` and
`this.addImageToPayload`, both overridable by providers; the embedding
passes them as parameters (`flat`, `addImage`). -/

/-- Base `LlmEngine.requiresFlatTextPayload`:
`['system', 'assistant'].includes(msg.role)`. -/
def requiresFlatTextPayloadBase (msg : Message) : Bool :=
  [Role.system, Role.assistant].contains msg.role

/-- Ollama override of `requiresFlatTextPayload`: always `true`. -/
def requiresFlatTextPayloadOllama (_msg : Message) : Bool :=
  true

/-- `payload.content.find(c => c.type === 'text')` followed by the
in-place merge `existingText.text = text + "\n\n" + attachment.content`:
merge into the first text segment, `none` when there is no text segment. -/
def mergeFirstText : List Seg → String → Option (List Seg)
  | [], _ => none
  | .text t :: rest, a => some (.text (t ++ "\n\n" ++ a) :: rest)
  | s :: rest, a => (mergeFirstText rest a).map (s :: ·)

/-- `LlmEngine.addTextToPayload` (engine.ts lines 59-81). -/
def addTextToPayload (flat : Message → Bool) (msg : Message)
    (attContent : String) (p : PayloadMsg) : PayloadMsg :=
  match p.content with
  | .parts l =>
    if flat msg then
      match mergeFirstText l attContent with
      | some l' => { p with content := .parts l' }
      | none => { p with content := .parts (l ++ [.text attContent]) }
    else
      { p with content := .parts (l ++ [.text attContent]) }
  | .str s => { p with content := .str (s ++ "\n\n" ++ attContent) }

/-- Base `LlmEngine.addImageToPayload` (engine.ts lines 83-100): promote
a string content to a segment list, then push a data-url image segment. -/
def addImageToPayloadBase (a : Attachment) (attContent : String)
    (p : PayloadMsg) : PayloadMsg :=
  let c := match p.content with
    | .str s => PContent.parts [.text s]
    | c => c
  match c with
  | .parts l =>
    { p with content :=
        .parts (l ++ [.imageUrl ("data:" ++ a.mimeType ++ ";base64," ++ attContent)]) }
  | c => { p with content := c }

/-- Ollama override of `addImageToPayload` (ollama.ts): push the raw
content onto the payload's `images` array instead. -/
def addImageToPayloadOllama (_a : Attachment) (attContent : String)
    (p : PayloadMsg) : PayloadMsg :=
  { p with images := p.images ++ [attContent] }

/-- One step of the attachment loop in `buildPayload` (engine.ts lines
266-284): skip content-less attachments, add text attachments via
`addTextToPayload`, add image attachments via `addImageToPayload` only
when the model has vision. -/
def attachmentStep (flat : Message → Bool)
    (addImage : Attachment → String → PayloadMsg → PayloadMsg)
    (vision : Bool) (msg : Message) (p : PayloadMsg) (a : Attachment) :
    PayloadMsg :=
  match a.content with
  | none => p
  | some c =>
    let p := if a.isText then addTextToPayload flat msg c p else p
    if a.isImage && vision then addImage a c p else p

/-- The payload built for one message with non-null `contentForModel`
(the body of the `map` in `buildPayload`, engine.ts lines 253-288). -/
def buildMessagePayload (flat : Message → Bool)
    (addImage : Attachment → String → PayloadMsg → PayloadMsg)
    (model : ChatModel) (msg : Message) (m : String) : PayloadMsg :=
  let init : PayloadMsg :=
    { role := msg.role
      content := if flat msg then .str m else .parts [.text m]
      images := [] }
  msg.attachments.foldl
    (attachmentStep flat addImage model.capabilities.vision msg) init

/-- `LlmEngine.buildPayload` on a message thread (engine.ts lines
245-291, `thread` an array): messages whose `contentForModel` is null
are filtered out, the rest are mapped to payloads. -/
def buildPayload (flat : Message → Bool)
    (addImage : Attachment → String → PayloadMsg → PayloadMsg)
    (model : ChatModel) (thread : List Message) : List PayloadMsg :=
  thread.filterMap fun msg =>
    msg.contentForModel.map (buildMessagePayload flat addImage model msg)

/-- The base engine's `buildPayload` (abstract `LlmEngine`). -/
def buildPayloadBase (model : ChatModel) (thread : List Message) :
    List PayloadMsg :=
  buildPayload requiresFlatTextPayloadBase addImageToPayloadBase model thread

/-- The Ollama engine's `buildPayload`: the inherited algorithm with the
Ollama overrides of `requiresFlatTextPayload` and `addImageToPayload`. -/
def buildPayloadOllama (model : ChatModel) (thread : List Message) :
    List PayloadMsg :=
  buildPayload requiresFlatTextPayloadOllama addImageToPayloadOllama model thread

/-! ## Tool execution (`engine.ts` lines 378-550, `types/plugin.ts`)

JSON `arguments` objects are modelled by their serialized form: `args`
is the string `JSON.stringify(tool.function.arguments || '')`, and
`JSON.parse` of it gives the same value back, so both sides are the
same `String` in the model. -/

/-- `LlmToolExecutionValidationDecision`. -/
inductive VDecision where
  | allow
  | deny
  | abort
deriving DecidableEq, Repr

/-- `LlmToolExecutionValidationResponse` (decision + optional reason). -/
structure VResponse where
  decision : VDecision
  reason : Option String
deriving DecidableEq, Repr

/-- `LlmToolExecutionValidationCallback`, applied to (tool, args); the
`context` argument of the TS callback only carries the model id and the
abort signal and does not influence the engine's behaviour. -/
def VCallback : Type := String → String → VResponse

/-- A tool result value (`any` in TS).  `errorPayload m` is an object
`{error: m}`; `value s` any other result. -/
inductive RVal where
  | errorPayload (msg : String)
  | value (s : String)
deriving DecidableEq, Repr

/-- `{error: m}.error`, `undefined` on other results. -/
def RVal.errField : RVal → Option String
  | .errorPayload m => some m
  | .value _ => none

/-- `PluginExecutionResult`: the terminal update
`{type:'result', result, canceled?, validation?}`.  `result : Option`
models a null/undefined result, `canceled` defaults to `false` when the
field is absent. -/
structure ExecResult where
  result : Option RVal
  canceled : Bool
  validation : Option VResponse
deriving DecidableEq, Repr

/-- `PluginExecutionUpdate`: a progress status or a terminal result. -/
inductive Update where
  | status (s : String)
  | result (r : ExecResult)
deriving DecidableEq, Repr

/-- The payload handed to the owning plugin: the raw args, or the
multi-tool reshaping `{tool, parameters}` (engine.ts line 466). -/
inductive ToolPayload where
  | plain (args : String)
  | multi (tool : String) (parameters : String)
deriving DecidableEq, Repr

/-- Modelled from the spec: `plugin.ts` is not under `src/`; §6 gives a
plugin a name, enabled flag, per-tool descriptions, a single-shot
`execute` or a progressive `executeWithUpdates`, and — for the
multi-tool variant — a `handlesTool` predicate.  `execute` returns
`Except` to model a thrown failure (the thrown `Error`'s message). -/
structure Plugin where
  name : String
  enabled : Bool
  isMultiTool : Bool
  handlesTool : String → Bool
  executeWithUpdates : Option (ToolPayload → List Update)
  execute : ToolPayload → Except String (Option RVal)
  getPreparationDescription : String → Option String
  getRunningDescription : String → String → Option String
  getCompletedDescription : String → String → RVal → Option String
  getCanceledDescription : String → String → Option String

/-- The multi-tool scan of `callTool`/`getPluginForTool` (engine.ts
lines 386-393, 461-470): the first multi-tool plugin in registry order
that claims to handle the tool. -/
def findMulti : List Plugin → String → Option Plugin
  | [], _ => none
  | p :: ps, t =>
    if p.isMultiTool && p.handlesTool t then some p else findMulti ps t

/-- `getPluginForTool` (engine.ts lines 378-398): name match first,
then the multi-tool scan. -/
def getPluginForTool (plugins : List Plugin) (tool : String) : Option Plugin :=
  match plugins.find? (fun p => p.name == tool) with
  | some p => some p
  | none => findMulti plugins tool

/-- JavaScript `x || 'fallback'` on an optional string (empty string is
falsy). -/
def jsOrString (o : Option String) (fallback : String) : String :=
  match o with
  | some s => if s = "" then fallback else s
  | none => fallback

/-- JavaScript `a || b` keeping optionality (empty string is falsy). -/
def jsOrOpt (a b : Option String) : Option String :=
  match a with
  | some s => if s = "" then b else some s
  | none => b

/-- `getToolPreparationDescription` (engine.ts lines 400-403). -/
def getToolPreparationDescription (plugins : List Plugin) (tool : String) :
    String :=
  jsOrString ((getPluginForTool plugins tool).bind
    (fun p => p.getPreparationDescription tool)) ""

/-- `getToolRunningDescription` (engine.ts lines 405-408). -/
def getToolRunningDescription (plugins : List Plugin) (tool args : String) :
    String :=
  jsOrString ((getPluginForTool plugins tool).bind
    (fun p => p.getRunningDescription tool args)) ""

/-- `getToolCompletedDescription` (engine.ts lines 410-413). -/
def getToolCompletedDescription (plugins : List Plugin)
    (tool args : String) (results : RVal) : Option String :=
  (getPluginForTool plugins tool).bind
    (fun p => p.getCompletedDescription tool args results)

/-- `getToolCanceledDescription` (engine.ts lines 415-418). -/
def getToolCanceledDescription (plugins : List Plugin) (tool args : String) :
    Option String :=
  (getPluginForTool plugins tool).bind
    (fun p => p.getCanceledDescription tool args)

/-- The owner resolution at the top of `callTool` (engine.ts lines
456-472): the name-matching plugin with the raw args, else the first
handling multi-tool plugin with the reshaped payload. -/
def resolveOwner (plugins : List Plugin) (tool args : String) :
    Option (Plugin × ToolPayload) :=
  match plugins.find? (fun p => p.name == tool) with
  | some p => some (p, .plain args)
  | none => (findMulti plugins tool).map (fun p => (p, .multi tool args))

/-- The `{error: 'Operation cancelled'}` terminal canceled update, with
the validation metadata attached when already computed. -/
def cancelUpd (validation : Option VResponse) : Update :=
  .result { result := some (.errorPayload "Operation cancelled")
            canceled := true
            validation := validation }

/-- The `executeWithUpdates` driving loop of `callTool` (engine.ts
lines 509-523): before forwarding each update the abort signal is
re-checked; an observed cancellation yields a terminal canceled update
(preserving validation metadata) and stops.  The signal is polled at
successive times starting at `t`. -/
def driveUpdates (sig : Nat → Bool) (validation : Option VResponse) :
    Nat → List Update → List Update × Option String
  | _, [] => ([], none)
  | t, u :: us =>
    if sig t then ([cancelUpd validation], none)
    else
      let r := driveUpdates sig validation (t + 1) us
      (u :: r.1, r.2)

/-- The execution phase of `callTool` (engine.ts lines 508-548), after
resolution, abort pre-check and validation: progressive plugins are
driven with per-update cancellation checks; single-shot plugins are
awaited once, a thrown failure coinciding with an active cancellation
(or carrying the recognized cancellation message) becoming a terminal
canceled update, any other failure propagating as a thrown error. -/
def callToolExec (owner : Plugin) (payload : ToolPayload) (sig : Nat → Bool)
    (t : Nat) (validation : Option VResponse) : List Update × Option String :=
  match owner.executeWithUpdates with
  | some f => driveUpdates sig validation t (f payload)
  | none =>
    match owner.execute payload with
    | .ok r => ([.result { result := r, canceled := false, validation := validation }], none)
    | .error e =>
      if sig t || e == "Operation cancelled" then
        ([cancelUpd validation], none)
      else
        ([], some e)

/-- The `{error: 'Tool … does not exist…'}` payload (engine.ts line 478). -/
def notFoundMsg (tool : String) : String :=
  "Tool " ++ tool ++ " does not exist. Check the tool list and try again."

/-- The `{error: 'Tool … execution denied…'}` payload (engine.ts line 501). -/
def denyErrorMsg (tool : String) (resp : VResponse) : String :=
  "Tool " ++ tool ++ " execution denied by validation function. Reason: "
    ++ jsOrString resp.reason "forbidden"

/-- `callTool` after owner resolution (engine.ts lines 483-548):
pre-execution cancellation check, validation gate, then execution. -/
def callToolResolved (owner : Plugin) (payload : ToolPayload)
    (sig : Nat → Bool) (t : Nat) (tool args : String)
    (validation? : Option VCallback) : List Update × Option String :=
  if sig t then
    let r : ExecResult :=
      { result := some (.errorPayload "Operation cancelled"), canceled := true, validation := none }
    ([.result r], none)
  else
    match validation? with
    | some v =>
      let resp := v tool args
      if resp.decision ≠ .allow then
        let r : ExecResult :=
          { result := some (.errorPayload (denyErrorMsg tool resp)), canceled := false, validation := some resp }
        ([.result r], none)
      else
        callToolExec owner payload sig (t + 1) (some resp)
    | none => callToolExec owner payload sig (t + 1) none

/-- `LlmEngine.callTool` (engine.ts lines 453-550).  Returns the list of
yielded `PluginExecutionUpdate`s and the error thrown after them, if
any.  `sig t` is the state of `context.abortSignal.aborted` at the
`t`-th poll; the entry check polls at `t`, later checks at `t+1`, ... -/
def callTool (plugins : List Plugin) (sig : Nat → Bool) (t : Nat)
    (tool args : String) (validation? : Option VCallback) :
    List Update × Option String :=
  match resolveOwner plugins tool args with
  | none =>
    let r : ExecResult :=
      { result := some (.errorPayload (notFoundMsg tool)), canceled := false, validation := none }
    ([.result r], none)
  | some (owner, payload) =>
    callToolResolved owner payload sig t tool args validation?

/-- The distinguished errors thrown by `processToolExecutionResult`:
the missing-terminal-update `Error`, and the tool-abort signal
(`LlmChunkToolAbort` thrown as an exception, engine.ts lines 437-445). -/
inductive ProcErr where
  | noResult
  | toolAbort (name : String) (params : String) (reason : VResponse)
deriving DecidableEq, Repr

/-- `LlmEngine.processToolExecutionResult` (engine.ts lines 420-451):
requires a terminal update; extracts the content with a fallback error
payload; an `abort` validation decision throws the tool-abort signal;
`deny` or an explicit canceled flag classifies the call as canceled. -/
def processToolExecutionResult (toolName : String) (params : String)
    (lastUpdate : Option ExecResult) : Except ProcErr (RVal × Bool) :=
  match lastUpdate with
  | none => .error .noResult
  | some u =>
    let content := u.result.getD (.errorPayload "No result from tool")
    match u.validation with
    | some v =>
      if v.decision = .abort then
        .error (.toolAbort toolName params v)
      else
        .ok (content, u.canceled || v.decision = .deny)
    | none => .ok (content, u.canceled)

/-! ## Uniform chunks (`LlmChunk`) and the `generate` loop
(`engine.ts` lines 119-201)

The loop is parameterized by the provider's chunk normalizer
(`nativeChunkToLlmChunk`): a function from a native chunk and the
streaming context to the list of uniform chunks it yields, the updated
context, and the exception it throws after those yields, if any.
Replacement streams are named by numeric ids resolved through a
`streams` environment.  The caller's `AbortSignal` is a boolean signal
`sig` sampled at successive poll times. -/

/-- `ToolExecutionState`. -/
inductive ToolState where
  | preparing
  | running
  | completed
  | canceled
  | error
deriving DecidableEq, Repr

/-- `LlmUsage` (token counters). -/
structure Usage where
  prompt_tokens : Nat
  completion_tokens : Nat
deriving DecidableEq, Repr

/-- `LlmChunk`: one uniform streaming chunk.  `streamSwitch` is the
`{type:'stream'}` directive carrying the replacement stream (by id);
`toolAbort` is the `LlmChunkToolAbort` chunk. -/
inductive Msg where
  | content (text : String) (done : Bool)
  | reasoning (text : String) (done : Bool)
  | streamSwitch (sid : Nat)
  | tool (id : String) (name : String) (state : ToolState)
      (status : Option String) (done : Bool)
      (callParams : Option String) (callResult : Option RVal)
  | usage (u : Usage)
  | toolAbort (name : String) (params : String) (reason : VResponse)
  | openaiMessageId (id : String)
deriving DecidableEq, Repr

/-- An exception escaping the normalizer generator: the tool-abort
signal (caught by `generate`) or any other error (re-thrown). -/
inductive NormErr where
  | toolAbort (name : String) (params : String) (reason : VResponse)
  | other (msg : String)
deriving DecidableEq, Repr

/-- What a normalizer invocation produces: the yielded chunks, the
updated streaming context, and the exception thrown after them. -/
structure NormOut (χ : Type) where
  msgs : List Msg
  ctx : χ
  err : Option NormErr

/-- One event of a `generate` run, in order: `out m` — chunk `m` is
yielded to the caller; `switch sid` — a stream-switch directive is
recorded (not yielded); `newStream sid` — the exhausted stream is
replaced by stream `sid`; `aborted` — cancellation was observed and
`currentStream.controller.abort` invoked. -/
inductive Ev where
  | out (m : Msg)
  | switch (sid : Nat)
  | newStream (sid : Nat)
  | aborted
deriving DecidableEq, Repr

/-- Result of the inner loop over one normalizer's yields. -/
structure MsgsRes where
  evs : List Ev
  t : Nat
  pending : Option Nat
  ab : Bool
deriving Repr

/-- Handling of one normalized message (engine.ts lines 153-169): a
stream message records the replacement stream and yields nothing; a
content message with `done = true` is yielded with `done` forced to
`false` while a switch is pending; every other message is forwarded
unchanged. -/
def stepMsg (pending : Option Nat) (m : Msg) : List Ev × Option Nat :=
  match m with
  | .streamSwitch sid => ([.switch sid], some sid)
  | .content text true =>
    if pending.isSome then ([.out (.content text false)], pending)
    else ([.out (.content text true)], pending)
  | m => ([.out m], pending)

/-- The inner `for await (const msg of llmChunkStream)` of `generate`
(engine.ts lines 150-177): each message is handled by `stepMsg`; after
each message the abort signal is checked, an observed cancellation
aborting the transport and terminating the generator. -/
def runMsgs (sig : Nat → Bool) : Nat → Option Nat → List Msg → MsgsRes
  | t, pending, [] => { evs := [], t := t, pending := pending, ab := false }
  | t, pending, m :: ms =>
    let step := stepMsg pending m
    if sig t then
      { evs := step.1 ++ [.aborted], t := t + 1, pending := step.2, ab := true }
    else
      let r := runMsgs sig (t + 1) step.2 ms
      { r with evs := step.1 ++ r.evs }

/-- How one native stream's consumption ended. -/
inductive COut where
  | ended
  | canceled
  | errored
deriving DecidableEq, Repr

/-- Result of the loop over one native stream's chunks. -/
structure ChunksRes (χ : Type) where
  evs : List Ev
  t : Nat
  pending : Option Nat
  ctx : χ
  out : COut

/-- The `for await (const chunk of currentStream)` of `generate`
(engine.ts lines 137-186): before normalizing each native chunk the
abort signal is checked (transport abort + return on cancellation);
the normalizer's yields are processed by `runMsgs`; a tool-abort
escaping the normalizer is caught and forwarded as a chunk, after
which the loop continues with the next native chunk; any other error
terminates the generation. -/
def runChunks {χ N : Type} (norm : N → χ → NormOut χ) (sig : Nat → Bool) :
    Nat → Option Nat → χ → List N → ChunksRes χ
  | t, pending, ctx, [] =>
    { evs := [], t := t, pending := pending, ctx := ctx, out := .ended }
  | t, pending, ctx, c :: cs =>
    if sig t then
      { evs := [.aborted], t := t + 1, pending := pending, ctx := ctx, out := .canceled }
    else
      let no := norm c ctx
      let mr := runMsgs sig (t + 1) pending no.msgs
      if mr.ab then
        { evs := mr.evs, t := mr.t, pending := mr.pending, ctx := no.ctx, out := .canceled }
      else
        match no.err with
        | none =>
          let r := runChunks norm sig mr.t mr.pending no.ctx cs
          { r with evs := mr.evs ++ r.evs }
        | some (.toolAbort n a v) =>
          let r := runChunks norm sig mr.t mr.pending no.ctx cs
          { r with evs := mr.evs ++ .out (.toolAbort n a v) :: r.evs }
        | some (.other _) =>
          { evs := mr.evs, t := mr.t, pending := mr.pending, ctx := no.ctx, out := .errored }

/-- How a whole `generate` run ended.  `fuelOut` is the artifact of the
bounded outer loop (the TS loop runs as long as switches arrive). -/
inductive GStatus where
  | done
  | canceled
  | errored
  | fuelOut
deriving DecidableEq, Repr

/-- Result of a `generate` run: its event trace, how it ended, the
final streaming context, and the final poll time. -/
structure GenRes (χ : Type) where
  trace : List Ev
  status : GStatus
  ctx : χ
  t : Nat

/-- The outer `while (true)` of `generate` (engine.ts lines 131-193):
consume the current native stream; if a replacement stream was
recorded, it becomes current (the pending marker resetting) and the
loop repeats, otherwise the generation ends. -/
def runStreams {χ N : Type} (norm : N → χ → NormOut χ)
    (streams : Nat → List N) (sig : Nat → Bool) :
    Nat → Nat → Nat → χ → GenRes χ
  | 0, t, _, ctx => { trace := [], status := .fuelOut, ctx := ctx, t := t }
  | fuel + 1, t, sid, ctx =>
    let cr := runChunks norm sig t none ctx (streams sid)
    match cr.out with
    | .canceled => { trace := cr.evs, status := .canceled, ctx := cr.ctx, t := cr.t }
    | .errored => { trace := cr.evs, status := .errored, ctx := cr.ctx, t := cr.t }
    | .ended =>
      match cr.pending with
      | none => { trace := cr.evs, status := .done, ctx := cr.ctx, t := cr.t }
      | some sid' =>
        let r := runStreams norm streams sig fuel cr.t sid' cr.ctx
        { r with trace := cr.evs ++ .newStream sid' :: r.trace }

/-- `LlmEngine.generate`: run the orchestration loop starting from
stream `sid`. -/
def generate {χ N : Type} (norm : N → χ → NormOut χ)
    (streams : Nat → List N) (sig : Nat → Bool) (fuel sid : Nat) (ctx : χ) :
    GenRes χ :=
  runStreams norm streams sig fuel 0 sid ctx

/-- A pre-normalized native chunk, for runs whose normalizer is an
opaque per-chunk oracle (the generic claims about the loop itself). -/
structure NChunk where
  msgs : List Msg
  err : Option NormErr

/-- The oracle normalizer: each native chunk carries its own
normalization outcome; the context is trivial. -/
def plainNorm : NChunk → Unit → NormOut Unit :=
  fun c _ => { msgs := c.msgs, ctx := (), err := c.err }

/-- A cancellation signal that is never set. -/
def sigOff : Nat → Bool := fun _ => false

/-! ### Trace predicates for the temporal claims -/

/-- Whether a switch is pending after the events `l`, starting from
`p`: a `switch` directive sets it, moving to the replacement stream
clears it. -/
def flagAfter (p : Bool) : List Ev → Bool
  | [] => p
  | e :: rest =>
    match e with
    | .switch _ => flagAfter true rest
    | .newStream _ => flagAfter false rest
    | _ => flagAfter p rest

/-- The stale-done-suppression property of a trace: no `content` chunk
with `done = true` is yielded while a switch is pending (between a
`switch` directive and the following `newStream`). -/
def noStaleDone (p : Bool) : List Ev → Bool
  | [] => true
  | e :: rest =>
    match e with
    | .switch _ => noStaleDone true rest
    | .newStream _ => noStaleDone false rest
    | .out (.content _ true) => !p && noStaleDone p rest
    | _ => noStaleDone p rest

/-! ## The Ollama provider (`ollama.ts`): streaming context and the
chunk normalizer `nativeChunkToLlmChunk` -/

/-- `tool_call.function` of a native Ollama chunk: the tool name and
the serialized arguments object (`none` models `undefined`; the model
identifies an arguments object with its serialized form, so
`JSON.stringify`/`JSON.parse` are the identity on it). -/
structure OllamaFunctionCall where
  name : String
  arguments : Option String
deriving DecidableEq, Repr

/-- One native tool call (`chunk.message.tool_calls[i]`). -/
structure OllamaToolCall where
  function : OllamaFunctionCall
deriving DecidableEq, Repr

/-- `chunk.message` of a native Ollama `ChatResponse`. -/
structure OllamaMessage where
  content : Option String
  thinking : Option String
  tool_calls : List OllamaToolCall
deriving DecidableEq, Repr

/-- A native Ollama `ChatResponse` chunk. -/
structure ChatResponse where
  done : Bool
  message : OllamaMessage
  eval_count : Option Nat
  prompt_eval_count : Option Nat
deriving DecidableEq, Repr

/-- `JSON.stringify(tool.function.arguments || '')` in the model. -/
def stringifyArgs (a : Option String) : String := a.getD ""

/-- `LlmToolCall` (types/llm.ts lines 32-37): id, raw provider
fragment, owning function name, serialized arguments. -/
structure LlmToolCall where
  id : String
  message : OllamaToolCall
  function : String
  args : String
deriving DecidableEq, Repr

/-- An entry of the working thread: an original payload message, a raw
provider message folded back in, or a serialized tool response. -/
inductive ThreadEntry where
  | payload (p : PayloadMsg)
  | native (m : OllamaMessage)
  | toolResponse (content : RVal)
deriving DecidableEq, Repr

/-- `OllamaStreamingContext`: model id, working thread, tool calls
seen, usage accumulator, thinking flag, and the completion options the
normalizer consults (`abortSignal` — constant over the run in the
model, `toolExecutionValidation`, `toolChoice?.type === 'tool'`,
`usage`).  `streamCounter` names the next stream the client returns. -/
structure OContext where
  modelId : String
  thread : List ThreadEntry
  toolCalls : List LlmToolCall
  usage : Usage
  thinking : Bool
  optAborted : Bool
  optValidation : Option VCallback
  optToolChoiceTool : Bool
  optUsage : Bool
  streamCounter : Nat

/-- `doStream` (ollama.ts lines 563-584): reset the context's
`toolCalls` and `thinking`, then ask the client for a new native
stream (named here by the next counter value). -/
def doStream (ctx : OContext) : Nat × OContext :=
  (ctx.streamCounter,
   { ctx with toolCalls := [], thinking := false,
              streamCounter := ctx.streamCounter + 1 })

/-- `if (context.opts.toolChoice?.type === 'tool') delete
context.opts.toolChoice` (ollama.ts lines 776-778). -/
def clearForcedToolChoice (ctx : OContext) : OContext :=
  if ctx.optToolChoiceTool then { ctx with optToolChoiceTool := false } else ctx

/-- Recording of one tool call (ollama.ts lines 658-665): the id is the
decimal rendering of the current list length, and the call is pushed. -/
def recordToolCall (ctx : OContext) (tc : OllamaToolCall) : LlmToolCall × OContext :=
  let toolCall : LlmToolCall :=
    { id := Nat.repr ctx.toolCalls.length, message := tc,
      function := tc.function.name, args := stringifyArgs tc.function.arguments }
  (toolCall, { ctx with toolCalls := ctx.toolCalls ++ [toolCall] })

/-- Folding a tool call and its serialized result into the thread
(ollama.ts lines 739-746). -/
def pushToolExchange (ctx : OContext) (chunkMsg : OllamaMessage)
    (content : RVal) : OContext :=
  { ctx with thread := ctx.thread ++ [.native chunkMsg, .toolResponse content] }

/-- The final value of the `lastUpdate` variable: the last terminal
update among the forwarded ones. -/
def lastResult (us : List Update) : Option ExecResult :=
  us.foldl (fun acc u => match u with | .result r => some r | _ => acc) none

/-- The `running` tool chunks yielded for the status updates forwarded
by `callTool` (ollama.ts lines 700-712). -/
def statusMsgs (id name args : String) (us : List Update) : List Msg :=
  us.filterMap fun u => match u with
    | .status s => some (.tool id name .running (some s) false (some args) none)
    | _ => none

/-- The `for (const tool of chunk.message.tool_calls)` loop of the
Ollama normalizer (ollama.ts lines 656-773): record the tool call
(id = decimal length of the context's list), yield
preparing/running/status chunks, drive `callTool`, classify the result,
yield the terminal tool chunk, fold the call and its result into the
thread; a thrown tool-abort or error is re-thrown unless the abort
signal is set (in which case a canceled chunk is yielded and the
normalizer stops); after all calls, clear a forced tool choice and
yield the switch to the stream started by `doStream`. -/
def toolCallLoop (plugins : List Plugin) (chunkMsg : OllamaMessage) :
    OContext → List OllamaToolCall → List Msg × OContext × Option NormErr
  | ctx, [] =>
    let ctx := clearForcedToolChoice ctx
    let r := doStream ctx
    ([.streamSwitch r.1], r.2, none)
  | ctx, tc :: rest =>
    let name := tc.function.name
    let args := stringifyArgs tc.function.arguments
    let rc := recordToolCall ctx tc
    let toolCall := rc.1
    let ctx := rc.2
    let prep : Msg := .tool toolCall.id name .preparing
      (some (getToolPreparationDescription plugins name)) false none none
    let running : Msg := .tool toolCall.id name .running
      (some (getToolRunningDescription plugins name args)) false (some args) none
    let ct := callTool plugins (fun _ => ctx.optAborted) 0 name args ctx.optValidation
    let sts := statusMsgs toolCall.id name args ct.1
    let canceledChunk : Msg := .tool toolCall.id name .canceled
      (getToolCanceledDescription plugins name args) true (some args) none
    match ct.2 with
    | some e =>
      if ctx.optAborted then
        (prep :: running :: sts ++ [canceledChunk], ctx, none)
      else
        (prep :: running :: sts, ctx, some (.other e))
    | none =>
      match processToolExecutionResult name args (lastResult ct.1) with
      | .error .noResult =>
        if ctx.optAborted then
          (prep :: running :: sts ++ [canceledChunk], ctx, none)
        else
          (prep :: running :: sts, ctx,
           some (.other ("[ollama] tool call " ++ name ++ " did not return any result")))
      | .error (.toolAbort n a v) =>
        if ctx.optAborted then
          (prep :: running :: sts ++ [canceledChunk], ctx, none)
        else
          (prep :: running :: sts, ctx, some (.toolAbort n a v))
      | .ok (content, canceled) =>
        let finalChunk : Msg := .tool toolCall.id name
          (if canceled then .canceled else .completed)
          (if canceled then
            some (jsOrString (jsOrOpt (getToolCanceledDescription plugins name args)
              content.errField) "Tool execution was canceled")
           else getToolCompletedDescription plugins name args content)
          true (some args) (some content)
        let ctx := pushToolExchange ctx chunkMsg content
        if ctx.optAborted then
          (prep :: running :: sts ++ [finalChunk], ctx, none)
        else
          let r := toolCallLoop plugins chunkMsg ctx rest
          (prep :: running :: sts ++ finalChunk :: r.1, r.2.1, r.2.2)

/-- The usage accumulation at the top of the normalizer (ollama.ts
lines 644-647), with JavaScript truthiness on the optional counters. -/
def updateUsage (chunk : ChatResponse) (ctx : OContext) : OContext :=
  if chunk.done && (chunk.eval_count.getD 0 ≠ 0 || chunk.prompt_eval_count.getD 0 ≠ 0) then
    { ctx with usage :=
      { prompt_tokens := ctx.usage.prompt_tokens + chunk.prompt_eval_count.getD 0
        completion_tokens := ctx.usage.completion_tokens + chunk.eval_count.getD 0 } }
  else ctx

/-- The Ollama `nativeChunkToLlmChunk` (ollama.ts lines 638-826). -/
def ollamaNorm (plugins : List Plugin) (chunk : ChatResponse)
    (ctx : OContext) : NormOut OContext :=
  let ctx := updateUsage chunk ctx
  if chunk.message.tool_calls ≠ [] then
    let r := toolCallLoop plugins chunk.message ctx chunk.message.tool_calls
    { msgs := r.1, ctx := r.2.1, err := r.2.2 }
  else if chunk.message.content = some "<think>" then
    { msgs := [], ctx := { ctx with thinking := true }, err := none }
  else if chunk.message.content = some "</think>" then
    { msgs := [], ctx := { ctx with thinking := false }, err := none }
  else
    let text := chunk.message.content.getD ""
    let msgs₁ : List Msg := match chunk.message.thinking with
      | some s => if s ≠ "" then [.reasoning s chunk.done] else []
      | none => []
    let msgs₂ : List Msg :=
      if text ≠ "" || chunk.done then
        [if ctx.thinking then .reasoning text chunk.done else .content text chunk.done]
      else []
    let msgs₃ : List Msg :=
      if ctx.optUsage && chunk.done then [.usage ctx.usage] else []
    { msgs := msgs₁ ++ msgs₂ ++ msgs₃, ctx := ctx, err := none }

/-- A streaming Ollama generation: `stream()` starts the first native
stream via `doStream` (ollama.ts lines 541-561), then the engine's
`generate` loop drives the normalizer; `client` maps each stream id to
the native chunks the Ollama client produces for it. -/
def ollamaGenerate (plugins : List Plugin) (client : Nat → List ChatResponse)
    (sig : Nat → Bool) (fuel : Nat) (ctx0 : OContext) : GenRes OContext :=
  let s := doStream ctx0
  generate (ollamaNorm plugins) client sig fuel s.1 s.2

/-! ## Spec-side definitions and auxiliary observers -/

/-- Resolution order as the spec states it (§4.3): "(1) a plugin whose
name equals `toolName`; (2) failing that, the first multi-tool plugin
that claims to handle `toolName`, with the payload reshaped to
`{tool, parameters}`" — the second clause written directly as
first-of-the-filtered-registry. -/
def specResolve (plugins : List Plugin) (tool args : String) :
    Option (Plugin × ToolPayload) :=
  match plugins.find? (fun p => p.name == tool) with
  | some p => some (p, .plain args)
  | none =>
    ((plugins.filter (fun p => p.isMultiTool && p.handlesTool tool)).head?).map
      (fun p => (p, .multi tool args))

/-- The ids of the `preparing` tool chunks of a trace — one per tool
invocation surfaced to the caller. -/
def prepIds (evs : List Ev) : List String :=
  evs.filterMap fun e => match e with
    | .out (.tool id _ .preparing _ _ _ _) => some id
    | _ => none

/-- The ids of the `preparing` tool chunks of a normalizer's yields. -/
def prepIdsM (msgs : List Msg) : List String :=
  msgs.filterMap fun m => match m with
    | .tool id _ .preparing _ _ _ _ => some id
    | _ => none

/-- The value of a decimal digit string (inverse of `Nat.repr` on its
image; used to prove decimal ids of distinct numbers distinct). -/
def decodeDigits (l : List Char) : Nat :=
  l.foldl (fun a c => 10 * a + (c.toNat - Char.toNat '0')) 0

/-! ## Concrete fixtures for witnesses and counterexamples -/

/-- A chat model without the vision capability. -/
def sampleModelNoVision : ChatModel :=
  { id := "g"
    name := "g"
    capabilities := { tools := false, vision := false, reasoning := false, caching := false } }

/-- A chat model with the vision capability. -/
def sampleModelVision : ChatModel :=
  { id := "v"
    name := "v"
    capabilities := { tools := false, vision := true, reasoning := false, caching := false } }

/-- A registered single-shot plugin `search` whose execution returns
`{hits:3}`-style data. -/
def samplePlugin : Plugin :=
  { name := "search"
    enabled := true
    isMultiTool := false
    handlesTool := fun _ => false
    executeWithUpdates := none
    execute := fun _ => .ok (some (.value "hits3"))
    getPreparationDescription := fun _ => none
    getRunningDescription := fun _ _ => none
    getCompletedDescription := fun _ _ _ => none
    getCanceledDescription := fun _ _ => none }

/-- A native chunk declaring one `search("cats")` tool call. -/
def sampleToolChunk : ChatResponse :=
  { done := false
    message := { content := none, thinking := none,
                 tool_calls := [{ function := { name := "search", arguments := some "cats" } }] }
    eval_count := none
    prompt_eval_count := none }

/-- A final native content chunk. -/
def sampleDoneChunk : ChatResponse :=
  { done := true
    message := { content := some "ok", thinking := none, tool_calls := [] }
    eval_count := none
    prompt_eval_count := none }

/-- A fresh streaming context (no options set, nothing accumulated). -/
def sampleCtx : OContext :=
  { modelId := "m"
    thread := []
    toolCalls := []
    usage := { prompt_tokens := 0, completion_tokens := 0 }
    thinking := false
    optAborted := false
    optValidation := none
    optToolChoiceTool := false
    optUsage := false
    streamCounter := 0 }

/-- A validation callback that aborts every tool invocation. -/
def sampleAbortCallback : VCallback :=
  fun _ _ => { decision := .abort, reason := some "stop" }

/-- A validation callback that denies every tool invocation. -/
def sampleDenyCallback : VCallback :=
  fun _ _ => { decision := .deny, reason := some "nope" }

/-- A client whose first two streams each declare one tool call and
whose third is a plain completion: a two-round tool generation. -/
def twoRoundClient : Nat → List ChatResponse :=
  fun n => match n with
    | 0 => [sampleToolChunk]
    | 1 => [sampleToolChunk]
    | _ => [sampleDoneChunk]

/-- A pre-normalized stream for the oracle loop: its first native chunk
throws a tool-abort after yielding nothing, its second yields a plain
content chunk. -/
def abortThenContentStream : Nat → List NChunk :=
  fun n => match n with
    | 0 => [{ msgs := [], err := some (.toolAbort "t" "a" { decision := .abort, reason := none }) },
            { msgs := [.content "x" false], err := none }]
    | _ => []

/-! ## Theorems -/

/-- Claim C10: the Ollama engine overrides `requiresFlatTextPayload` to
`true` for every message regardless of role, so its `buildPayload`
merges text-attachment contents into the message's single flat text
content (newline-joined) for every role — user, developer and tool
included, not only the base contract's system/assistant. -/
theorem c10_ollama_flat_all_roles :
    (∀ msg : Message, requiresFlatTextPayloadOllama msg = true) ∧
    (∀ (model : ChatModel) (role : Role) (m c1 c2 : String),
      buildPayloadOllama model
        [{ role := role, contentForModel := some m,
           attachments := [{ kind := .text, mimeType := "text/plain", content := some c1 },
                           { kind := .text, mimeType := "text/plain", content := some c2 }] }]
        = [{ role := role, content := .str (m ++ "\n\n" ++ c1 ++ "\n\n" ++ c2), images := [] }]) := by
  exact ⟨fun _ => rfl, fun model role m c1 c2 => rfl⟩

/-- Claim C8: for a system/assistant message carrying two text
attachments with non-null content, the built payload holds exactly one
text segment: the message content and both attachment contents,
newline-joined; for any other role each text attachment appends its own
text segment. -/
theorem c8_flat_text_merging (model : ChatModel) (msg : Message)
    (m c1 c2 : String) (a1 a2 : Attachment)
    (hm : msg.contentForModel = some m)
    (hatts : msg.attachments = [a1, a2])
    (h1k : a1.kind = .text) (h2k : a2.kind = .text)
    (h1c : a1.content = some c1) (h2c : a2.content = some c2) :
    (requiresFlatTextPayloadBase msg = true →
      buildPayloadBase model [msg]
        = [{ role := msg.role, content := .str (m ++ "\n\n" ++ c1 ++ "\n\n" ++ c2), images := [] }]
      ∧ ((buildPayloadBase model [msg]).map fun p => p.content.textSegs)
          = [[m ++ "\n\n" ++ c1 ++ "\n\n" ++ c2]]) ∧
    (requiresFlatTextPayloadBase msg = false →
      buildPayloadBase model [msg]
        = [{ role := msg.role, content := .parts [.text m, .text c1, .text c2], images := [] }]) := by
  obtain ⟨role, cfm, atts⟩ := msg
  obtain ⟨k1, mt1, co1⟩ := a1
  obtain ⟨k2, mt2, co2⟩ := a2
  simp only at hm hatts h1k h2k h1c h2c
  subst hm hatts h1k h2k h1c h2c
  constructor
  · intro hflat
    constructor
    · simp [buildPayloadBase, buildPayload, buildMessagePayload, attachmentStep,
        addTextToPayload, Attachment.isText, Attachment.isImage, hflat]
    · simp [buildPayloadBase, buildPayload, buildMessagePayload, attachmentStep,
        addTextToPayload, Attachment.isText, Attachment.isImage, hflat, PContent.textSegs]
  · intro hflat
    simp [buildPayloadBase, buildPayload, buildMessagePayload, attachmentStep,
      addTextToPayload, Attachment.isText, Attachment.isImage, hflat]

/-- Claim C8 witness: the two cases at a concrete system / user message. -/
theorem c8_flat_text_merging_witness :
    (buildPayloadBase sampleModelNoVision
      [{ role := .system, contentForModel := some "sys",
         attachments := [{ kind := .text, mimeType := "text/plain", content := some "a1" },
                         { kind := .text, mimeType := "text/plain", content := some "a2" }] }]
      = [{ role := .system, content := .str ("sys" ++ "\n\n" ++ "a1" ++ "\n\n" ++ "a2"), images := [] }]) ∧
    (buildPayloadBase sampleModelNoVision
      [{ role := .user, contentForModel := some "u",
         attachments := [{ kind := .text, mimeType := "text/plain", content := some "a1" },
                         { kind := .text, mimeType := "text/plain", content := some "a2" }] }]
      = [{ role := .user, content := .parts [.text "u", .text "a1", .text "a2"], images := [] }]) := by
  constructor
  · exact ((c8_flat_text_merging sampleModelNoVision
      ⟨.system, some "sys", [⟨.text, "text/plain", some "a1"⟩, ⟨.text, "text/plain", some "a2"⟩]⟩
      "sys" "a1" "a2" ⟨.text, "text/plain", some "a1"⟩ ⟨.text, "text/plain", some "a2"⟩
      rfl rfl rfl rfl rfl rfl).1 rfl).1
  · exact (c8_flat_text_merging sampleModelNoVision
      ⟨.user, some "u", [⟨.text, "text/plain", some "a1"⟩, ⟨.text, "text/plain", some "a2"⟩]⟩
      "u" "a1" "a2" ⟨.text, "text/plain", some "a1"⟩ ⟨.text, "text/plain", some "a2"⟩
      rfl rfl rfl rfl rfl rfl).2 rfl

/-- The multi-tool scan is first-match over the registry order. -/
theorem findMulti_eq_filter_head (ps : List Plugin) (tool : String) :
    findMulti ps tool
      = (ps.filter (fun p => p.isMultiTool && p.handlesTool tool)).head? := by
  induction ps with
  | nil => rfl
  | cons p ps ih =>
    by_cases h : (p.isMultiTool && p.handlesTool tool) = true
    · simp [findMulti, List.filter_cons, h]
    · simp [findMulti, List.filter_cons, h, ih]

/-- Claim C6: `callTool` resolves the executing plugin per the spec's
resolution order — name match first, else the first multi-tool plugin
claiming the name with the `{tool, parameters}` reshaping — and on
failure yields exactly one terminal update carrying a descriptive error
payload, throwing nothing. -/
theorem c6_calltool_resolution (ps : List Plugin) (sig : Nat → Bool)
    (t : Nat) (tool args : String) (v? : Option VCallback) :
    callTool ps sig t tool args v?
      = (match specResolve ps tool args with
         | none =>
           ([.result { result := some (.errorPayload (notFoundMsg tool)), canceled := false, validation := none }], none)
         | some (owner, payload) =>
           callToolResolved owner payload sig t tool args v?) := by
  unfold callTool specResolve resolveOwner
  rw [findMulti_eq_filter_head]

/-- Claim C7: with the cancellation token already signaled at entry,
`callTool` on a resolvable tool yields exactly one terminal canceled
update and returns — for every validation callback (so the callback is
never consulted) and every plugin behaviour (so execution never
starts). -/
theorem c7_precancel (ps : List Plugin) (tool args : String)
    (op : Plugin × ToolPayload)
    (hres : resolveOwner ps tool args = some op)
    (sig : Nat → Bool) (t : Nat) (hs : sig t = true)
    (v? : Option VCallback) :
    callTool ps sig t tool args v?
      = ([.result { result := some (.errorPayload "Operation cancelled"), canceled := true, validation := none }], none) := by
  obtain ⟨p, pl⟩ := op
  unfold callTool
  rw [hres]
  simp [callToolResolved, hs]

/-- Claim C7 witness: a registered plugin, token already signaled. -/
theorem c7_precancel_witness :
    callTool [samplePlugin] (fun _ => true) 0 "search" "cats" none
      = ([.result { result := some (.errorPayload "Operation cancelled"), canceled := true, validation := none }], none) :=
  c7_precancel [samplePlugin] "search" "cats" (samplePlugin, .plain "cats")
    rfl (fun _ => true) 0 rfl none

/-! ### Trace lemmas for the orchestration loop -/

theorem flagAfter_append (p : Bool) (l₁ l₂ : List Ev) :
    flagAfter p (l₁ ++ l₂) = flagAfter (flagAfter p l₁) l₂ := by
  induction l₁ generalizing p with
  | nil => rfl
  | cons e l ih => cases e <;> simp [flagAfter, ih]

theorem noStaleDone_append (p : Bool) (l₁ l₂ : List Ev) :
    noStaleDone p (l₁ ++ l₂)
      = (noStaleDone p l₁ && noStaleDone (flagAfter p l₁) l₂) := by
  induction l₁ generalizing p with
  | nil => simp [noStaleDone, flagAfter]
  | cons e l ih =>
    cases e with
    | out m =>
      cases m with
      | content t d =>
        cases d <;> simp [noStaleDone, flagAfter, ih, Bool.and_assoc]
      | reasoning t d => simp [noStaleDone, flagAfter, ih]
      | streamSwitch sid => simp [noStaleDone, flagAfter, ih]
      | tool a b c s dn cp cr => simp [noStaleDone, flagAfter, ih]
      | usage u => simp [noStaleDone, flagAfter, ih]
      | toolAbort n a v => simp [noStaleDone, flagAfter, ih]
      | openaiMessageId i => simp [noStaleDone, flagAfter, ih]
    | switch sid => simp [noStaleDone, flagAfter, ih]
    | newStream sid => simp [noStaleDone, flagAfter, ih]
    | aborted => simp [noStaleDone, flagAfter, ih]

theorem stepMsg_no_aborted : ∀ (p : Option Nat) (m : Msg), Ev.aborted ∉ (stepMsg p m).1
  | p, .content t true => by cases p <;> simp [stepMsg]
  | _, .content t false => by simp [stepMsg]
  | _, .reasoning t d => by simp [stepMsg]
  | _, .streamSwitch sid => by simp [stepMsg]
  | _, .tool a b c s dn cp cr => by simp [stepMsg]
  | _, .usage u => by simp [stepMsg]
  | _, .toolAbort n a v => by simp [stepMsg]
  | _, .openaiMessageId i => by simp [stepMsg]

theorem stepMsg_flag : ∀ (p : Option Nat) (m : Msg),
    flagAfter p.isSome (stepMsg p m).1 = (stepMsg p m).2.isSome
  | p, .content t true => by cases p <;> simp [stepMsg, flagAfter]
  | p, .content t false => by simp [stepMsg, flagAfter]
  | p, .reasoning t d => by simp [stepMsg, flagAfter]
  | p, .streamSwitch sid => by simp [stepMsg, flagAfter]
  | p, .tool a b c s dn cp cr => by simp [stepMsg, flagAfter]
  | p, .usage u => by simp [stepMsg, flagAfter]
  | p, .toolAbort n a v => by simp [stepMsg, flagAfter]
  | p, .openaiMessageId i => by simp [stepMsg, flagAfter]

theorem stepMsg_noStale : ∀ (p : Option Nat) (m : Msg),
    noStaleDone p.isSome (stepMsg p m).1 = true
  | p, .content t true => by cases p <;> simp [stepMsg, noStaleDone]
  | p, .content t false => by simp [stepMsg, noStaleDone]
  | p, .reasoning t d => by simp [stepMsg, noStaleDone]
  | p, .streamSwitch sid => by simp [stepMsg, noStaleDone]
  | p, .tool a b c s dn cp cr => by simp [stepMsg, noStaleDone]
  | p, .usage u => by simp [stepMsg, noStaleDone]
  | p, .toolAbort n a v => by simp [stepMsg, noStaleDone]
  | p, .openaiMessageId i => by simp [stepMsg, noStaleDone]

theorem runMsgs_flag_noStale (sig : Nat → Bool) (ms : List Msg) :
    ∀ (t : Nat) (p : Option Nat),
      flagAfter p.isSome (runMsgs sig t p ms).evs
          = (runMsgs sig t p ms).pending.isSome
        ∧ noStaleDone p.isSome (runMsgs sig t p ms).evs = true := by
  induction ms with
  | nil => intro t p; simp [runMsgs, flagAfter, noStaleDone]
  | cons m ms ih =>
    intro t p
    by_cases h : sig t = true
    · simp only [runMsgs, h, if_true]
      constructor
      · rw [flagAfter_append, stepMsg_flag]; rfl
      · rw [noStaleDone_append, stepMsg_noStale, stepMsg_flag]
        simp [noStaleDone]
    · simp only [runMsgs, h, if_false, Bool.false_eq_true]
      constructor
      · rw [flagAfter_append, stepMsg_flag]
        exact (ih (t + 1) (stepMsg p m).2).1
      · rw [noStaleDone_append, stepMsg_noStale, stepMsg_flag]
        simp [(ih (t + 1) (stepMsg p m).2).2]

theorem runMsgs_abort_split (sig : Nat → Bool) (ms : List Msg) :
    ∀ (t : Nat) (p : Option Nat),
      ∃ l, (runMsgs sig t p ms).evs
          = l ++ (if (runMsgs sig t p ms).ab then [Ev.aborted] else [])
        ∧ Ev.aborted ∉ l := by
  induction ms with
  | nil => intro t p; exact ⟨[], by simp [runMsgs], by simp⟩
  | cons m ms ih =>
    intro t p
    by_cases h : sig t = true
    · refine ⟨(stepMsg p m).1, ?_, stepMsg_no_aborted p m⟩
      simp [runMsgs, h]
    · obtain ⟨l, hl, hnotin⟩ := ih (t + 1) (stepMsg p m).2
      refine ⟨(stepMsg p m).1 ++ l, ?_, ?_⟩
      · simp only [runMsgs, h, if_false, Bool.false_eq_true]
        rw [hl, List.append_assoc]
      · intro hmem
        rcases List.mem_append.mp hmem with hmem | hmem
        · exact stepMsg_no_aborted p m hmem
        · exact hnotin hmem

theorem runChunks_flag_noStale {χ N : Type} (norm : N → χ → NormOut χ)
    (sig : Nat → Bool) (cs : List N) :
    ∀ (t : Nat) (p : Option Nat) (ctx : χ),
      flagAfter p.isSome (runChunks norm sig t p ctx cs).evs
          = (runChunks norm sig t p ctx cs).pending.isSome
        ∧ noStaleDone p.isSome (runChunks norm sig t p ctx cs).evs = true := by
  induction cs with
  | nil => intro t p ctx; simp [runChunks, flagAfter, noStaleDone]
  | cons c cs ih =>
    intro t p ctx
    by_cases h : sig t = true
    · simp [runChunks, h, flagAfter, noStaleDone]
    · simp only [runChunks, h, if_false, Bool.false_eq_true]
      have hm := runMsgs_flag_noStale sig (norm c ctx).msgs (t + 1) p
      cases hab : (runMsgs sig (t + 1) p (norm c ctx).msgs).ab with
      | true => simp only [hab, if_true]; exact hm
      | false =>
        simp only [hab, Bool.false_eq_true, if_false]
        cases herr : (norm c ctx).err with
        | none =>
          simp only
          have hr := ih (runMsgs sig (t + 1) p (norm c ctx).msgs).t
            (runMsgs sig (t + 1) p (norm c ctx).msgs).pending (norm c ctx).ctx
          constructor
          · rw [flagAfter_append, hm.1]; exact hr.1
          · rw [noStaleDone_append, hm.2, hm.1, hr.2]; rfl
        | some e =>
          cases e with
          | toolAbort n a v =>
            simp only
            have hr := ih (runMsgs sig (t + 1) p (norm c ctx).msgs).t
              (runMsgs sig (t + 1) p (norm c ctx).msgs).pending (norm c ctx).ctx
            constructor
            · rw [flagAfter_append, hm.1]
              simpa [flagAfter] using hr.1
            · rw [noStaleDone_append, hm.2, hm.1]
              simpa [noStaleDone] using hr.2
          | other e => exact hm

theorem runChunks_abort_split {χ N : Type} (norm : N → χ → NormOut χ)
    (sig : Nat → Bool) (cs : List N) :
    ∀ (t : Nat) (p : Option Nat) (ctx : χ),
      ∃ l, (runChunks norm sig t p ctx cs).evs
          = l ++ (if (runChunks norm sig t p ctx cs).out = .canceled
                  then [Ev.aborted] else [])
        ∧ Ev.aborted ∉ l := by
  induction cs with
  | nil => intro t p ctx; exact ⟨[], by simp [runChunks], by simp⟩
  | cons c cs ih =>
    intro t p ctx
    by_cases h : sig t = true
    · exact ⟨[], by simp [runChunks, h], by simp⟩
    · simp only [runChunks, h, if_false, Bool.false_eq_true]
      obtain ⟨lm, hlm, hlmnotin⟩ := runMsgs_abort_split sig (norm c ctx).msgs (t + 1) p
      cases hab : (runMsgs sig (t + 1) p (norm c ctx).msgs).ab with
      | true =>
        simp only [hab, if_true]
        exact ⟨lm, by rw [hlm, hab]; simp, hlmnotin⟩
      | false =>
        simp [hab] at hlm
        simp only [hab, Bool.false_eq_true, if_false]
        cases herr : (norm c ctx).err with
        | none =>
          simp only
          obtain ⟨l, hl, hnotin⟩ := ih (runMsgs sig (t + 1) p (norm c ctx).msgs).t
            (runMsgs sig (t + 1) p (norm c ctx).msgs).pending (norm c ctx).ctx
          refine ⟨(runMsgs sig (t + 1) p (norm c ctx).msgs).evs ++ l, ?_, ?_⟩
          · rw [hl, List.append_assoc]
          · intro hmem
            rcases List.mem_append.mp hmem with hmem | hmem
            · rw [hlm] at hmem; exact hlmnotin hmem
            · exact hnotin hmem
        | some e =>
          cases e with
          | toolAbort n a v =>
            simp only
            obtain ⟨l, hl, hnotin⟩ := ih (runMsgs sig (t + 1) p (norm c ctx).msgs).t
              (runMsgs sig (t + 1) p (norm c ctx).msgs).pending (norm c ctx).ctx
            refine ⟨(runMsgs sig (t + 1) p (norm c ctx).msgs).evs
              ++ Ev.out (.toolAbort n a v) :: l, ?_, ?_⟩
            · rw [hl]
              simp [List.append_assoc]
            · intro hmem
              rcases List.mem_append.mp hmem with hmem | hmem
              · rw [hlm] at hmem; exact hlmnotin hmem
              · rcases List.mem_cons.mp hmem with hmem | hmem
                · exact Ev.noConfusion hmem
                · exact hnotin hmem
          | other e =>
            exact ⟨(runMsgs sig (t + 1) p (norm c ctx).msgs).evs,
              by simp, by rw [hlm]; exact hlmnotin⟩

theorem runStreams_noStale {χ N : Type} (norm : N → χ → NormOut χ)
    (streams : Nat → List N) (sig : Nat → Bool) :
    ∀ (fuel t sid : Nat) (ctx : χ),
      noStaleDone false (runStreams norm streams sig fuel t sid ctx).trace = true := by
  intro fuel
  induction fuel with
  | zero => intro t sid ctx; rfl
  | succ fuel ih =>
    intro t sid ctx
    rcases hcr : runChunks norm sig t none ctx (streams sid) with ⟨evs, t', pending, ctx', out⟩
    have h1 : flagAfter false evs = pending.isSome := by
      have h := (runChunks_flag_noStale norm sig (streams sid) t none ctx).1
      rw [hcr] at h
      simpa using h
    have h2 : noStaleDone false evs = true := by
      have h := (runChunks_flag_noStale norm sig (streams sid) t none ctx).2
      rw [hcr] at h
      simpa using h
    simp only [runStreams, hcr]
    cases out with
    | canceled => exact h2
    | errored => exact h2
    | ended =>
      cases pending with
      | none => exact h2
      | some sid' =>
        simp only
        rw [noStaleDone_append, h2, h1]
        simpa [noStaleDone] using ih t' sid' ctx'

theorem runStreams_abort_split {χ N : Type} (norm : N → χ → NormOut χ)
    (streams : Nat → List N) (sig : Nat → Bool) :
    ∀ (fuel t sid : Nat) (ctx : χ),
      ∃ l, (runStreams norm streams sig fuel t sid ctx).trace
          = l ++ (if (runStreams norm streams sig fuel t sid ctx).status = .canceled
                  then [Ev.aborted] else [])
        ∧ Ev.aborted ∉ l := by
  intro fuel
  induction fuel with
  | zero => intro t sid ctx; exact ⟨[], by simp [runStreams], by simp⟩
  | succ fuel ih =>
    intro t sid ctx
    rcases hcr : runChunks norm sig t none ctx (streams sid) with ⟨evs, t', pending, ctx', out⟩
    obtain ⟨l, hl, hnotin⟩ := runChunks_abort_split norm sig (streams sid) t none ctx
    rw [hcr] at hl
    simp only at hl
    simp only [runStreams, hcr]
    cases out with
    | canceled =>
      exact ⟨l, by simpa using hl, hnotin⟩
    | errored =>
      exact ⟨l, by simpa using hl, hnotin⟩
    | ended =>
      cases pending with
      | none => exact ⟨l, by simpa using hl, hnotin⟩
      | some sid' =>
        have hevs : evs = l := by simpa using hl
        obtain ⟨l', hl', hnotin'⟩ := ih t' sid' ctx'
        refine ⟨l ++ Ev.newStream sid' :: l', ?_, ?_⟩
        · show evs ++ Ev.newStream sid' :: (runStreams norm streams sig fuel t' sid' ctx').trace
            = (l ++ Ev.newStream sid' :: l')
              ++ (if (runStreams norm streams sig fuel t' sid' ctx').status = GStatus.canceled
                  then [Ev.aborted] else [])
          rw [hevs, hl']
          simp [List.append_assoc]
        · intro hmem
          rcases List.mem_append.mp hmem with hmem | hmem
          · exact hnotin hmem
          · rcases List.mem_cons.mp hmem with hmem | hmem
            · exact Ev.noConfusion hmem
            · exact hnotin' hmem

/-- Claim C1: in every `generate` run, once a stream-switch directive
has been recorded for the current native stream, no content chunk with
`done = true` is yielded until the loop actually moves to the
replacement stream: the stale terminal marker is suppressed (it is
forwarded with `done` forced to `false`). -/
theorem c1_stream_switch_suppression {χ N : Type} (norm : N → χ → NormOut χ)
    (streams : Nat → List N) (sig : Nat → Bool) (fuel sid : Nat) (ctx : χ) :
    noStaleDone false (generate norm streams sig fuel sid ctx).trace = true :=
  runStreams_noStale norm streams sig fuel 0 sid ctx

/-- Claim C4: in every `generate` run the transport-abort event happens
exactly when the run ends as canceled, at most once, and it is the last
event of the trace — once cancellation is observed at a checkpoint,
nothing further is forwarded to the caller (chunks produced in response
to the cancellation sit in the prefix `l`, before the abort). -/
theorem c4_cancellation_monotonicity {χ N : Type} (norm : N → χ → NormOut χ)
    (streams : Nat → List N) (sig : Nat → Bool) (fuel sid : Nat) (ctx : χ) :
    ∃ l, (generate norm streams sig fuel sid ctx).trace
        = l ++ (if (generate norm streams sig fuel sid ctx).status = .canceled
                then [Ev.aborted] else [])
      ∧ Ev.aborted ∉ l :=
  runStreams_abort_split norm streams sig fuel 0 sid ctx

/-! ### Tool-abort handling in the loop (C3) -/

theorem runMsgs_sigOff_ab (ms : List Msg) :
    ∀ (t : Nat) (p : Option Nat), (runMsgs sigOff t p ms).ab = false := by
  induction ms with
  | nil => intro t p; rfl
  | cons m ms ih => intro t p; simp [runMsgs, sigOff, ih]

/-- Unfolding of the loop on a native chunk whose normalization throws
a tool-abort (no cancellation signal): its yields go out, then the
caught tool-abort chunk, then the loop continues with the remaining
chunks of the current stream. -/
theorem runChunks_toolAbort_evs {χ N : Type} (norm : N → χ → NormOut χ)
    (c : N) (cs : List N) (t : Nat) (p : Option Nat) (ctx : χ)
    (n a : String) (v : VResponse)
    (h : (norm c ctx).err = some (.toolAbort n a v)) :
    (runChunks norm sigOff t p ctx (c :: cs)).evs
      = (runMsgs sigOff (t + 1) p (norm c ctx).msgs).evs
        ++ Ev.out (.toolAbort n a v)
          :: (runChunks norm sigOff (runMsgs sigOff (t + 1) p (norm c ctx).msgs).t
               (runMsgs sigOff (t + 1) p (norm c ctx).msgs).pending
               (norm c ctx).ctx cs).evs := by
  simp [runChunks, sigOff, runMsgs_sigOff_ab, h]

/-- Claim C3 counterexample: a native stream whose first chunk raises a
tool-abort and whose second carries ordinary content.  The run yields
the tool-abort chunk and then still forwards the following chunk — the
remainder of the stream is consumed, refuting "the generation
terminates after emitting a visible tool-abort chunk, and the remainder
of the native stream is not consumed". -/
theorem c3_counterexample :
    (generate plainNorm abortThenContentStream sigOff 1 0 ()).trace
      = [Ev.out (.toolAbort "t" "a" { decision := .abort, reason := none }),
         Ev.out (.content "x" false)]
    ∧ (generate plainNorm abortThenContentStream sigOff 1 0 ()).trace.get? 1
        = some (Ev.out (.content "x" false))
    ∧ (generate plainNorm abortThenContentStream sigOff 1 0 ()).status = .done := by
  refine ⟨rfl, rfl, rfl⟩

/-- Claim C3 as amended: when a tool invocation's validation decides
`abort`, the normalizer's pending yields are forwarded, then the
visible tool-abort chunk — and the loop is not stopped: the remaining
native chunks of the current stream are still normalized and
forwarded (the generation only ends once the stream is exhausted). -/
theorem c3_tool_abort_not_terminal {χ N : Type} (norm : N → χ → NormOut χ)
    (c : N) (cs : List N) (t : Nat) (p : Option Nat) (ctx : χ)
    (n a : String) (v : VResponse)
    (h : (norm c ctx).err = some (.toolAbort n a v)) :
    (runChunks norm sigOff t p ctx (c :: cs)).evs
      = (runMsgs sigOff (t + 1) p (norm c ctx).msgs).evs
        ++ Ev.out (.toolAbort n a v)
          :: (runChunks norm sigOff (runMsgs sigOff (t + 1) p (norm c ctx).msgs).t
               (runMsgs sigOff (t + 1) p (norm c ctx).msgs).pending
               (norm c ctx).ctx cs).evs :=
  runChunks_toolAbort_evs norm c cs t p ctx n a v h

/-- Claim C3 (amended) witness: the concrete two-chunk stream. -/
theorem c3_tool_abort_not_terminal_witness :
    (runChunks plainNorm sigOff 0 none ()
        [{ msgs := [], err := some (.toolAbort "t" "a" { decision := .abort, reason := none }) },
         { msgs := [.content "x" false], err := none }]).evs
      = (runMsgs sigOff 1 none ([] : List Msg)).evs
        ++ Ev.out (.toolAbort "t" "a" { decision := .abort, reason := none })
          :: (runChunks plainNorm sigOff (runMsgs sigOff 1 none ([] : List Msg)).t
               (runMsgs sigOff 1 none ([] : List Msg)).pending ()
               [{ msgs := [.content "x" false], err := none }]).evs :=
  c3_tool_abort_not_terminal plainNorm
    { msgs := [], err := some (.toolAbort "t" "a" { decision := .abort, reason := none }) }
    [{ msgs := [.content "x" false], err := none }]
    0 none () "t" "a" { decision := .abort, reason := none } rfl

/-! ### Validation abort vs deny through the Ollama normalizer (C2) -/

@[simp]
theorem updateUsage_toolCalls (chunk : ChatResponse) (ctx : OContext) :
    (updateUsage chunk ctx).toolCalls = ctx.toolCalls := by
  unfold updateUsage; split <;> rfl

@[simp]
theorem updateUsage_optAborted (chunk : ChatResponse) (ctx : OContext) :
    (updateUsage chunk ctx).optAborted = ctx.optAborted := by
  unfold updateUsage; split <;> rfl

@[simp]
theorem updateUsage_optValidation (chunk : ChatResponse) (ctx : OContext) :
    (updateUsage chunk ctx).optValidation = ctx.optValidation := by
  unfold updateUsage; split <;> rfl

@[simp]
theorem updateUsage_streamCounter (chunk : ChatResponse) (ctx : OContext) :
    (updateUsage chunk ctx).streamCounter = ctx.streamCounter := by
  unfold updateUsage; split <;> rfl

@[simp]
theorem updateUsage_optToolChoiceTool (chunk : ChatResponse) (ctx : OContext) :
    (updateUsage chunk ctx).optToolChoiceTool = ctx.optToolChoiceTool := by
  unfold updateUsage; split <;> rfl

@[simp]
theorem clearForcedToolChoice_streamCounter (ctx : OContext) :
    (clearForcedToolChoice ctx).streamCounter = ctx.streamCounter := by
  unfold clearForcedToolChoice; split <;> rfl

/-- Claim C2: for a tool invocation whose validation decides `abort`,
the normalizer throws the tool-abort signal after the
preparing/running yields, and the `generate` loop forwards it as a
chunk and keeps consuming the subsequent native chunks of the current
stream; for decision `deny` nothing is thrown, no tool-abort chunk
exists anywhere in the yields, and the tool's chunk sequence ends in a
`canceled`-state chunk (followed only by the round's stream switch). -/
theorem c2_tool_abort_vs_deny (plugins : List Plugin) (v : VCallback)
    (ctx : OContext) (chunk : ChatResponse) (tc : OllamaToolCall)
    (op : Plugin × ToolPayload)
    (hab : ctx.optAborted = false)
    (hv : ctx.optValidation = some v)
    (htc : chunk.message.tool_calls = [tc])
    (hres : resolveOwner plugins tc.function.name
      (stringifyArgs tc.function.arguments) = some op) :
    ((v tc.function.name (stringifyArgs tc.function.arguments)).decision = .abort →
      (ollamaNorm plugins chunk ctx).err
          = some (.toolAbort tc.function.name (stringifyArgs tc.function.arguments)
              (v tc.function.name (stringifyArgs tc.function.arguments)))
        ∧ ∀ (rest : List ChatResponse) (t : Nat) (p : Option Nat),
          (runChunks (ollamaNorm plugins) sigOff t p ctx (chunk :: rest)).evs
            = (runMsgs sigOff (t + 1) p (ollamaNorm plugins chunk ctx).msgs).evs
              ++ Ev.out (.toolAbort tc.function.name (stringifyArgs tc.function.arguments)
                    (v tc.function.name (stringifyArgs tc.function.arguments)))
                :: (runChunks (ollamaNorm plugins) sigOff
                      (runMsgs sigOff (t + 1) p (ollamaNorm plugins chunk ctx).msgs).t
                      (runMsgs sigOff (t + 1) p (ollamaNorm plugins chunk ctx).msgs).pending
                      (ollamaNorm plugins chunk ctx).ctx rest).evs) ∧
    ((v tc.function.name (stringifyArgs tc.function.arguments)).decision = .deny →
      (ollamaNorm plugins chunk ctx).err = none
        ∧ ∃ s₁ s₂ s₃,
          (ollamaNorm plugins chunk ctx).msgs
            = [.tool (Nat.repr ctx.toolCalls.length) tc.function.name .preparing s₁
                 false none none,
               .tool (Nat.repr ctx.toolCalls.length) tc.function.name .running s₂
                 false (some (stringifyArgs tc.function.arguments)) none,
               .tool (Nat.repr ctx.toolCalls.length) tc.function.name .canceled s₃
                 true (some (stringifyArgs tc.function.arguments))
                 (some (.errorPayload (denyErrorMsg tc.function.name
                    (v tc.function.name (stringifyArgs tc.function.arguments))))),
               .streamSwitch ctx.streamCounter]) := by
  obtain ⟨owner, payload⟩ := op
  constructor
  · intro hdec
    have herr : (ollamaNorm plugins chunk ctx).err
        = some (.toolAbort tc.function.name (stringifyArgs tc.function.arguments)
            (v tc.function.name (stringifyArgs tc.function.arguments))) := by
      simp only [ollamaNorm, htc]
      simp [toolCallLoop, recordToolCall, pushToolExchange, clearForcedToolChoice,
        callTool, hres, callToolResolved, hab, hv, hdec,
        statusMsgs, lastResult, processToolExecutionResult]
    exact ⟨herr, fun rest t p =>
      runChunks_toolAbort_evs (ollamaNorm plugins) chunk rest t p ctx _ _ _ herr⟩
  · intro hdec
    refine ⟨?_, ?_⟩
    · simp only [ollamaNorm, htc]
      simp [toolCallLoop, recordToolCall, pushToolExchange, clearForcedToolChoice,
        callTool, hres, callToolResolved, hab, hv, hdec,
        statusMsgs, lastResult, processToolExecutionResult]
    · refine ⟨some (getToolPreparationDescription plugins tc.function.name),
        some (getToolRunningDescription plugins tc.function.name
          (stringifyArgs tc.function.arguments)),
        some (jsOrString (jsOrOpt (getToolCanceledDescription plugins tc.function.name
          (stringifyArgs tc.function.arguments))
          (RVal.errField (.errorPayload (denyErrorMsg tc.function.name
            (v tc.function.name (stringifyArgs tc.function.arguments))))))
          "Tool execution was canceled"), ?_⟩
      simp only [ollamaNorm, htc]
      simp [toolCallLoop, recordToolCall, pushToolExchange, clearForcedToolChoice,
        callTool, hres, callToolResolved, hab, hv, hdec,
        statusMsgs, lastResult, processToolExecutionResult, doStream]
      split <;> rfl

/-- Claim C2 witness: a registered tool, aborting / denying callbacks. -/
theorem c2_tool_abort_vs_deny_witness :
    ((ollamaNorm [samplePlugin] sampleToolChunk
        { sampleCtx with optValidation := some sampleAbortCallback }).err
      = some (.toolAbort "search" "cats" { decision := .abort, reason := some "stop" }))
    ∧ ((ollamaNorm [samplePlugin] sampleToolChunk
        { sampleCtx with optValidation := some sampleDenyCallback }).err = none) := by
  constructor
  · exact ((c2_tool_abort_vs_deny [samplePlugin] sampleAbortCallback
      { sampleCtx with optValidation := some sampleAbortCallback }
      sampleToolChunk { function := { name := "search", arguments := some "cats" } }
      (samplePlugin, .plain "cats") rfl rfl rfl rfl).1 rfl).1
  · exact ((c2_tool_abort_vs_deny [samplePlugin] sampleDenyCallback
      { sampleCtx with optValidation := some sampleDenyCallback }
      sampleToolChunk { function := { name := "search", arguments := some "cats" } }
      (samplePlugin, .plain "cats") rfl rfl rfl rfl).2 rfl).1

/-! ### Tool-call ids (C5)

The id of a recorded tool call is the decimal rendering of the
context's list length (`${context.toolCalls.length}` = `Nat.repr`);
distinctness of ids reduces to injectivity of `Nat.repr`, proved by a
decoding round-trip. -/

theorem toDigitsCore_acc (fuel : Nat) : ∀ (n : Nat) (ds : List Char),
    Nat.toDigitsCore 10 fuel n ds = Nat.toDigitsCore 10 fuel n [] ++ ds := by
  induction fuel with
  | zero => intro n ds; rfl
  | succ fuel ih =>
    intro n ds
    simp only [Nat.toDigitsCore]
    by_cases h : n / 10 = 0
    · simp [h]
    · simp only [h, if_false]
      rw [ih (n / 10) (Nat.digitChar (n % 10) :: ds),
        ih (n / 10) [Nat.digitChar (n % 10)], List.append_assoc]
      rfl

theorem decodeDigits_append (l : List Char) (c : Char) :
    decodeDigits (l ++ [c]) = 10 * decodeDigits l + (c.toNat - Char.toNat '0') := by
  simp [decodeDigits, List.foldl_append]

theorem digitChar_decode : ∀ d : Nat, d < 10 →
    (Nat.digitChar d).toNat - Char.toNat '0' = d := by decide

theorem decode_toDigitsCore : ∀ (fuel n : Nat), n < fuel →
    decodeDigits (Nat.toDigitsCore 10 fuel n []) = n := by
  intro fuel
  induction fuel with
  | zero => intro n h; exact absurd h (Nat.not_lt_zero n)
  | succ fuel ih =>
    intro n h
    simp only [Nat.toDigitsCore]
    by_cases h10 : n / 10 = 0
    · have hn : n < 10 := by omega
      simp only [h10, if_true]
      have : decodeDigits [Nat.digitChar (n % 10)]
          = (Nat.digitChar (n % 10)).toNat - Char.toNat '0' := by
        simp [decodeDigits]
      rw [this, digitChar_decode (n % 10) (Nat.mod_lt n (by omega)),
        Nat.mod_eq_of_lt hn]
    · have hge : 10 ≤ n := by
        by_contra hlt
        exact h10 (Nat.div_eq_of_lt (by omega))
      have hdivlt : n / 10 < fuel := by
        have := Nat.div_lt_self (by omega : 0 < n) (by omega : 1 < 10)
        omega
      rw [if_neg h10, toDigitsCore_acc, decodeDigits_append, ih (n / 10) hdivlt,
        digitChar_decode (n % 10) (Nat.mod_lt n (by omega))]
      omega

theorem natRepr_injective : Function.Injective Nat.repr := by
  intro m n h
  have hlist : Nat.toDigits 10 m = Nat.toDigits 10 n := by
    have h' : (Nat.toDigits 10 m).asString = (Nat.toDigits 10 n).asString := h
    simpa [List.asString] using congrArg String.data h'
  have hm := decode_toDigitsCore (m + 1) m (Nat.lt_succ_self m)
  have hn := decode_toDigitsCore (n + 1) n (Nat.lt_succ_self n)
  unfold Nat.toDigits at hlist
  rw [← hm, ← hn, hlist]

theorem prepIdsM_append (l₁ l₂ : List Msg) :
    prepIdsM (l₁ ++ l₂) = prepIdsM l₁ ++ prepIdsM l₂ := by
  simp [prepIdsM, List.filterMap_append]

@[simp]
theorem prepIdsM_nil : prepIdsM [] = [] := rfl

@[simp]
theorem prepIdsM_cons_prep (id name : String) (st : Option String) (d : Bool)
    (cp : Option String) (cr : Option RVal) (l : List Msg) :
    prepIdsM (.tool id name .preparing st d cp cr :: l) = id :: prepIdsM l := by
  simp [prepIdsM]

@[simp]
theorem prepIdsM_cons_running (id name : String) (st : Option String) (d : Bool)
    (cp : Option String) (cr : Option RVal) (l : List Msg) :
    prepIdsM (.tool id name .running st d cp cr :: l) = prepIdsM l := by
  simp [prepIdsM]

@[simp]
theorem prepIdsM_cons_completed (id name : String) (st : Option String) (d : Bool)
    (cp : Option String) (cr : Option RVal) (l : List Msg) :
    prepIdsM (.tool id name .completed st d cp cr :: l) = prepIdsM l := by
  simp [prepIdsM]

@[simp]
theorem prepIdsM_cons_canceled (id name : String) (st : Option String) (d : Bool)
    (cp : Option String) (cr : Option RVal) (l : List Msg) :
    prepIdsM (.tool id name .canceled st d cp cr :: l) = prepIdsM l := by
  simp [prepIdsM]

@[simp]
theorem prepIdsM_cons_streamSwitch (sid : Nat) (l : List Msg) :
    prepIdsM (.streamSwitch sid :: l) = prepIdsM l := by
  simp [prepIdsM]

@[simp]
theorem prepIdsM_cons_content (t : String) (d : Bool) (l : List Msg) :
    prepIdsM (.content t d :: l) = prepIdsM l := by
  simp [prepIdsM]

@[simp]
theorem prepIdsM_cons_reasoning (t : String) (d : Bool) (l : List Msg) :
    prepIdsM (.reasoning t d :: l) = prepIdsM l := by
  simp [prepIdsM]

@[simp]
theorem prepIdsM_cons_usage (u : Usage) (l : List Msg) :
    prepIdsM (.usage u :: l) = prepIdsM l := by
  simp [prepIdsM]

@[simp]
theorem prepIdsM_statusMsgs (id name args : String) (us : List Update) :
    prepIdsM (statusMsgs id name args us) = [] := by
  induction us with
  | nil => rfl
  | cons u us ih =>
    cases u with
    | status s => simpa [statusMsgs, prepIdsM] using ih
    | result r => simpa [statusMsgs, prepIdsM] using ih

@[simp]
theorem recordToolCall_fst_id (ctx : OContext) (tc : OllamaToolCall) :
    (recordToolCall ctx tc).1.id = Nat.repr ctx.toolCalls.length := rfl

@[simp]
theorem recordToolCall_snd_optAborted (ctx : OContext) (tc : OllamaToolCall) :
    (recordToolCall ctx tc).2.optAborted = ctx.optAborted := rfl

@[simp]
theorem recordToolCall_snd_optValidation (ctx : OContext) (tc : OllamaToolCall) :
    (recordToolCall ctx tc).2.optValidation = ctx.optValidation := rfl

theorem recordToolCall_snd_toolCalls_length (ctx : OContext) (tc : OllamaToolCall) :
    (recordToolCall ctx tc).2.toolCalls.length = ctx.toolCalls.length + 1 := by
  simp [recordToolCall]

@[simp]
theorem pushToolExchange_toolCalls (ctx : OContext) (m : OllamaMessage) (r : RVal) :
    (pushToolExchange ctx m r).toolCalls = ctx.toolCalls := rfl

@[simp]
theorem pushToolExchange_optAborted (ctx : OContext) (m : OllamaMessage) (r : RVal) :
    (pushToolExchange ctx m r).optAborted = ctx.optAborted := rfl

/-- Ids recorded by one tool-call batch: the decimal renderings of the
consecutive positions starting at the context's current list length. -/
theorem toolCallLoop_prepIds (plugins : List Plugin) (chunkMsg : OllamaMessage) :
    ∀ (tcs : List OllamaToolCall) (ctx : OContext),
      ∃ k, prepIdsM (toolCallLoop plugins chunkMsg ctx tcs).1
        = (List.range' ctx.toolCalls.length k).map Nat.repr := by
  intro tcs
  induction tcs with
  | nil =>
    intro ctx
    exact ⟨0, by simp [toolCallLoop]⟩
  | cons tc rest ih =>
    intro ctx
    simp only [toolCallLoop]
    cases hct : (callTool plugins (fun _ => (recordToolCall ctx tc).2.optAborted) 0
        tc.function.name (stringifyArgs tc.function.arguments)
        (recordToolCall ctx tc).2.optValidation).2 with
    | some e =>
      refine ⟨1, ?_⟩
      simp only [hct]
      cases hab : ctx.optAborted <;>
        simp [prepIdsM_append, hab]
    | none =>
      simp only [hct]
      cases hproc : processToolExecutionResult tc.function.name
          (stringifyArgs tc.function.arguments)
          (lastResult (callTool plugins (fun _ => (recordToolCall ctx tc).2.optAborted) 0
            tc.function.name (stringifyArgs tc.function.arguments)
            (recordToolCall ctx tc).2.optValidation).1) with
      | error pe =>
        cases pe with
        | noResult =>
          refine ⟨1, ?_⟩
          simp only [hproc]
          cases hab : ctx.optAborted <;>
            simp [prepIdsM_append, hab]
        | toolAbort n a v =>
          refine ⟨1, ?_⟩
          simp only [hproc]
          cases hab : ctx.optAborted <;>
            simp [prepIdsM_append, hab]
      | ok res =>
        obtain ⟨content, canceled⟩ := res
        simp only [hproc]
        cases hab : ctx.optAborted with
        | true =>
          refine ⟨1, ?_⟩
          cases canceled <;> simp [prepIdsM_append, hab]
        | false =>
          obtain ⟨k, hk⟩ := ih (pushToolExchange (recordToolCall ctx tc).2 chunkMsg content)
          refine ⟨k + 1, ?_⟩
          rw [pushToolExchange_toolCalls, recordToolCall_snd_toolCalls_length] at hk
          cases canceled <;>
            simp [prepIdsM_append, hab, hk, List.range'_succ]

/-- When a chunk declares no tool calls, the normalizer yields no
`preparing` tool chunk at all. -/
theorem prepIdsM_ollamaNorm_noTools (plugins : List Plugin)
    (chunk : ChatResponse) (ctx : OContext)
    (htc : chunk.message.tool_calls = []) :
    prepIdsM (ollamaNorm plugins chunk ctx).msgs = [] := by
  unfold ollamaNorm
  rw [htc]
  rw [if_neg (fun hne => hne rfl)]
  split
  · rfl
  · split
    · rfl
    · simp only [prepIdsM_append]
      repeat' split
      all_goals simp

/-- Claim C5 counterexample: a two-round tool generation.  `doStream`
resets the context's tool-call list at each stream switch, so the
second round's tool call is recorded with id "0" again: the ids of the
tool chunks of one generation are not pairwise distinct across rounds. -/
theorem c5_counterexample :
    prepIds (ollamaGenerate [samplePlugin] twoRoundClient sigOff 5 sampleCtx).trace
        = ["0", "0"]
    ∧ ¬ (prepIds (ollamaGenerate [samplePlugin] twoRoundClient
          sigOff 5 sampleCtx).trace).Nodup := by
  constructor
  · rfl
  · intro h
    rw [show prepIds (ollamaGenerate [samplePlugin] twoRoundClient
          sigOff 5 sampleCtx).trace = ["0", "0"] from rfl] at h
    simp at h

/-- Claim C5 as amended: tool-call ids are unique within one tool round
— starting from a freshly reset context (`doStream` sets
`toolCalls = []` for every stream), the ids recorded while normalizing
one native chunk are the decimal sequence numbers 0, 1, …, pairwise
distinct; across rounds the reset restarts the numbering at "0". -/
theorem c5_ids_unique_per_round (plugins : List Plugin)
    (chunk : ChatResponse) (ctx : OContext) (h : ctx.toolCalls = []) :
    (prepIdsM (ollamaNorm plugins chunk ctx).msgs).Nodup := by
  by_cases htc : chunk.message.tool_calls = []
  · rw [prepIdsM_ollamaNorm_noTools plugins chunk ctx htc]
    exact List.nodup_nil
  · have hmsgs : (ollamaNorm plugins chunk ctx).msgs
        = (toolCallLoop plugins chunk.message (updateUsage chunk ctx)
            chunk.message.tool_calls).1 := by
      unfold ollamaNorm
      rw [if_pos htc]
    rw [hmsgs]
    obtain ⟨k, hk⟩ := toolCallLoop_prepIds plugins chunk.message
      chunk.message.tool_calls (updateUsage chunk ctx)
    simp only [updateUsage_toolCalls, h, List.length_nil] at hk
    rw [hk]
    exact (List.nodup_range' _ _).map natRepr_injective

/-- Claim C5 (amended) witness: the one-round normalization of the
sample tool chunk from a fresh context. -/
theorem c5_ids_unique_per_round_witness :
    (prepIdsM (ollamaNorm [samplePlugin] sampleToolChunk sampleCtx).msgs).Nodup :=
  c5_ids_unique_per_round [samplePlugin] sampleToolChunk sampleCtx rfl

/-! ### Vision gating (C9) -/

theorem mergeFirstText_imageUrls (a : String) :
    ∀ (l l' : List Seg), mergeFirstText l a = some l' →
      (PContent.parts l').imageUrls = (PContent.parts l).imageUrls := by
  intro l
  induction l with
  | nil => intro l' h; cases h
  | cons s rest ih =>
    intro l' h
    cases s with
    | text t =>
      simp only [mergeFirstText, Option.some.injEq] at h
      subst h
      simp [PContent.imageUrls]
    | imageUrl u =>
      simp only [mergeFirstText, Option.map_eq_some'] at h
      obtain ⟨l'', h1, rfl⟩ := h
      simp only [PContent.imageUrls, List.filterMap_cons]
      have := ih l'' h1
      simp only [PContent.imageUrls] at this
      simp [this]

theorem addTextToPayload_imageUrls (flat : Message → Bool) (msg : Message)
    (c : String) (p : PayloadMsg) :
    (addTextToPayload flat msg c p).content.imageUrls = p.content.imageUrls := by
  unfold addTextToPayload
  cases hc : p.content with
  | str s => simp [PContent.imageUrls]
  | parts l =>
    by_cases hf : flat msg = true
    · simp only [hf, if_true]
      cases hm : mergeFirstText l c with
      | some l' => simpa using mergeFirstText_imageUrls c l l' hm
      | none => simp [PContent.imageUrls, List.filterMap_append]
    · simp only [hf, Bool.false_eq_true, if_false]
      simp [PContent.imageUrls, List.filterMap_append]

theorem addImageToPayloadBase_mem (a : Attachment) (c : String) (p : PayloadMsg) :
    ("data:" ++ a.mimeType ++ ";base64," ++ c)
      ∈ (addImageToPayloadBase a c p).content.imageUrls := by
  unfold addImageToPayloadBase
  cases p.content <;> simp [PContent.imageUrls, List.filterMap_append]

theorem addImageToPayloadBase_preserve (a : Attachment) (c : String)
    (p : PayloadMsg) (u : String) (h : u ∈ p.content.imageUrls) :
    u ∈ (addImageToPayloadBase a c p).content.imageUrls := by
  unfold addImageToPayloadBase
  cases hc : p.content with
  | str s => rw [hc] at h; simp [PContent.imageUrls] at h
  | parts l =>
    rw [hc] at h
    simp only [PContent.imageUrls, List.filterMap_append]
    simp only [PContent.imageUrls] at h
    simp [h]

theorem attachmentStep_preserve (flat : Message → Bool) (msg : Message)
    (vision : Bool) (p : PayloadMsg) (a : Attachment) (u : String)
    (h : u ∈ p.content.imageUrls) :
    u ∈ (attachmentStep flat addImageToPayloadBase vision msg p a).content.imageUrls := by
  unfold attachmentStep
  cases a.content with
  | none => exact h
  | some c2 =>
    have hmid : u ∈ ((if a.isText then addTextToPayload flat msg c2 p
        else p)).content.imageUrls := by
      split
      · rw [addTextToPayload_imageUrls]; exact h
      · exact h
    show u ∈ ((if (a.isImage && vision) = true
        then addImageToPayloadBase a c2
          (if a.isText then addTextToPayload flat msg c2 p else p)
        else (if a.isText then addTextToPayload flat msg c2 p else p))).content.imageUrls
    split
    · exact addImageToPayloadBase_preserve a c2 _ u hmid
    · exact hmid

theorem foldl_preserve_imageUrl (flat : Message → Bool) (msg : Message)
    (vision : Bool) (atts : List Attachment) (u : String) :
    ∀ p : PayloadMsg, u ∈ p.content.imageUrls →
      u ∈ ((atts.foldl (attachmentStep flat addImageToPayloadBase vision msg)
        p)).content.imageUrls := by
  induction atts with
  | nil => intro p h; exact h
  | cons a atts ih =>
    intro p h
    exact ih _ (attachmentStep_preserve flat msg vision p a u h)

theorem attachmentStep_imageUrls_noVision (flat : Message → Bool) (msg : Message)
    (p : PayloadMsg) (a : Attachment) :
    (attachmentStep flat addImageToPayloadBase false msg p a).content.imageUrls
      = p.content.imageUrls := by
  unfold attachmentStep
  cases a.content with
  | none => rfl
  | some c =>
    simp only [Bool.and_false, Bool.false_eq_true, if_false]
    split
    · rw [addTextToPayload_imageUrls]
    · rfl

theorem foldl_noVision_imageUrls (flat : Message → Bool) (msg : Message)
    (atts : List Attachment) :
    ∀ p : PayloadMsg,
      ((atts.foldl (attachmentStep flat addImageToPayloadBase false msg)
        p)).content.imageUrls = p.content.imageUrls := by
  induction atts with
  | nil => intro p; rfl
  | cons a atts ih =>
    intro p
    rw [List.foldl_cons, ih, attachmentStep_imageUrls_noVision]

theorem attachmentStep_image_id_noVision (flat : Message → Bool) (msg : Message)
    (p : PayloadMsg) (a : Attachment) (hi : a.isImage = true) :
    attachmentStep flat addImageToPayloadBase false msg p a = p := by
  have hk : a.kind = .image := by
    simpa [Attachment.isImage, decide_eq_true_eq] using hi
  unfold attachmentStep
  cases a.content with
  | none => rfl
  | some c =>
    simp [Attachment.isText, hk]

theorem foldl_filter_images (flat : Message → Bool) (msg : Message)
    (atts : List Attachment) :
    ∀ p : PayloadMsg,
      atts.foldl (attachmentStep flat addImageToPayloadBase false msg) p
        = (atts.filter (fun a => !a.isImage)).foldl
            (attachmentStep flat addImageToPayloadBase false msg) p := by
  induction atts with
  | nil => intro p; rfl
  | cons a atts ih =>
    intro p
    by_cases hi : a.isImage = true
    · rw [List.filter_cons, if_neg (by simp [hi]), List.foldl_cons,
        attachmentStep_image_id_noVision flat msg p a hi, ih]
    · rw [List.filter_cons, if_pos (by simp [Bool.not_eq_true] at hi; simp [hi]),
        List.foldl_cons, List.foldl_cons, ih]

theorem mem_imageUrls_iff (c : PContent) (u : String) :
    u ∈ c.imageUrls ↔ Seg.imageUrl u ∈ c.segs := by
  cases c with
  | str s => simp [PContent.imageUrls, PContent.segs]
  | parts l =>
    simp only [PContent.imageUrls, PContent.segs, List.mem_filterMap]
    constructor
    · rintro ⟨s, hs, hu⟩
      cases s with
      | text t => simp at hu
      | imageUrl u' => simp at hu; subst hu; exact hs
    · intro hs
      exact ⟨Seg.imageUrl u, hs, rfl⟩

/-- Claim C9: an image attachment with non-null content appears in the
built payload (as its data-url segment) iff the model's capability set
includes vision; without vision the whole payload equals the one built
from the message with all image attachments removed — no content
segment of any kind is added for them. -/
theorem c9_vision_gating (model : ChatModel) (msg : Message) (m : String)
    (a : Attachment) (c : String)
    (hm : msg.contentForModel = some m)
    (ha : a ∈ msg.attachments) (hk : a.kind = .image) (hc : a.content = some c) :
    (buildPayloadBase model [msg]
        = [buildMessagePayload requiresFlatTextPayloadBase addImageToPayloadBase
            model msg m])
    ∧ (Seg.imageUrl ("data:" ++ a.mimeType ++ ";base64," ++ c)
        ∈ (buildMessagePayload requiresFlatTextPayloadBase addImageToPayloadBase
            model msg m).content.segs
      ↔ model.capabilities.vision = true)
    ∧ (model.capabilities.vision = false →
        buildMessagePayload requiresFlatTextPayloadBase addImageToPayloadBase
            model msg m
          = buildMessagePayload requiresFlatTextPayloadBase addImageToPayloadBase
              model { msg with attachments := msg.attachments.filter (fun a => !a.isImage) } m) := by
  refine ⟨by simp [buildPayloadBase, buildPayload, hm], ?_, ?_⟩
  · cases hv : model.capabilities.vision with
    | false =>
      constructor
      · intro hmem
        rw [← mem_imageUrls_iff] at hmem
        have hempty : (buildMessagePayload requiresFlatTextPayloadBase
            addImageToPayloadBase model msg m).content.imageUrls = [] := by
          unfold buildMessagePayload
          rw [hv, foldl_noVision_imageUrls]
          split <;> simp [PContent.imageUrls]
        rw [hempty] at hmem
        exact absurd hmem (List.not_mem_nil _)
      · intro h; exact absurd h (by simp)
    | true =>
      refine ⟨fun _ => rfl, fun _ => ?_⟩
      rw [← mem_imageUrls_iff]
      obtain ⟨s, t2, hsplit⟩ := List.append_of_mem ha
      unfold buildMessagePayload
      rw [hv, hsplit, List.foldl_append, List.foldl_cons]
      have hstep : ∀ p : PayloadMsg,
          attachmentStep requiresFlatTextPayloadBase addImageToPayloadBase true msg p a
            = addImageToPayloadBase a c p := by
        intro p
        unfold attachmentStep
        rw [hc]
        simp [Attachment.isText, Attachment.isImage, hk]
      rw [hstep]
      exact foldl_preserve_imageUrl _ _ _ _ _ _
        (addImageToPayloadBase_mem a c _)
  · intro hv
    show msg.attachments.foldl
        (attachmentStep requiresFlatTextPayloadBase addImageToPayloadBase
          model.capabilities.vision msg) _
      = (msg.attachments.filter (fun a => !a.isImage)).foldl
        (attachmentStep requiresFlatTextPayloadBase addImageToPayloadBase
          model.capabilities.vision ({ msg with attachments := msg.attachments.filter (fun a => !a.isImage) } : Message)) _
    rw [hv]
    exact foldl_filter_images requiresFlatTextPayloadBase msg msg.attachments _

/-- Claim C9 witness: one image attachment, with and without vision. -/
theorem c9_vision_gating_witness :
    (Seg.imageUrl ("data:" ++ "image/png" ++ ";base64," ++ "IMG")
        ∈ (buildMessagePayload requiresFlatTextPayloadBase addImageToPayloadBase
            sampleModelVision
            ⟨.user, some "m", [⟨.image, "image/png", some "IMG"⟩]⟩ "m").content.segs
      ↔ sampleModelVision.capabilities.vision = true)
    ∧ (Seg.imageUrl ("data:" ++ "image/png" ++ ";base64," ++ "IMG")
        ∈ (buildMessagePayload requiresFlatTextPayloadBase addImageToPayloadBase
            sampleModelNoVision
            ⟨.user, some "m", [⟨.image, "image/png", some "IMG"⟩]⟩ "m").content.segs
      ↔ sampleModelNoVision.capabilities.vision = true) := by
  constructor
  · exact (c9_vision_gating sampleModelVision
      ⟨.user, some "m", [⟨.image, "image/png", some "IMG"⟩]⟩ "m"
      ⟨.image, "image/png", some "IMG"⟩ "IMG" rfl (by simp) rfl rfl).2.1
  · exact (c9_vision_gating sampleModelNoVision
      ⟨.user, some "m", [⟨.image, "image/png", some "IMG"⟩]⟩ "m"
      ⟨.image, "image/png", some "IMG"⟩ "IMG" rfl (by simp) rfl rfl).2.1

end MultiLlm
